import Mathlib

/-!
Verification development for the git-session-orchestrator scripts.

Shallow embedding of the three Python scripts:
  scripts/session_monitor.py   — session discovery, activity summarization, tail loop
  scripts/git_coordination.py  — branch deltas, base-ref resolution, categorization
  scripts/heartbeat_monitor.py — heartbeat/delta aggregation cycle

Modelling conventions:
  - Python str values are Lean String (character-for-character; byte offsets of
    the ASCII log content coincide with character counts).
  - json.loads is an external stdlib collaborator; it is modelled as an abstract
    parameter of type String to Option JObj, returning the parsed top-level JSON
    object (dict) or none on a JSONDecodeError.  (A line whose top-level JSON
    value is not an object would raise an uncaught AttributeError in the source
    and is outside the model.)
  - datetime.fromisoformat is likewise modelled as an abstract parameter of type
    String to Option Int (a comparable instant, or none when the string is not
    ISO-8601 parseable).
  - subprocess results (git query outputs) are abstract String parameters.
  - Python float time values are modelled as rationals.
  - list.sort and sorted are stable; they are modelled with insertion sort,
    which has the same stable semantics.
-/

/-- JSON values, as produced by json.loads. -/
inductive Json where
  | null
  | bool (b : Bool)
  | num (n : Int)
  | str (s : String)
  | arr (elems : List Json)
  | obj (fields : List (String × Json))

/-- A JSON object (Python dict) as an association list.  json.loads keeps the
last binding for a duplicated key, so lookups search from the right. -/
abbrev JObj := List (String × Json)

/-- Python dict.get key lookup returning None when absent (last binding wins). -/
def jGet (fields : JObj) (key : String) : Option Json :=
  (fields.reverse.find? (fun p => p.1 == key)).map Prod.snd

/-- Python dict.get with an explicit default. -/
def jGetD (fields : JObj) (key : String) (dflt : Json) : Json :=
  (jGet fields key).getD dflt

/-- Python equality test between a JSON value and a string literal. -/
def jEqStr : Json → String → Bool
  | .str s, t => s == t
  | _, _ => false

/-- Python equality test between an optional JSON value (dict.get result,
possibly None) and a string literal.  None never equals a string. -/
def jEqStrOpt : Option Json → String → Bool
  | some j, t => jEqStr j t
  | none, _ => false

/-- Python truthiness of a JSON value. -/
def pyTruthy : Json → Bool
  | .null => false
  | .bool b => b
  | .num n => n != 0
  | .str s => s != ""
  | .arr es => !es.isEmpty
  | .obj fs => !fs.isEmpty

mutual
/-- Python repr of a JSON value (string escaping approximated: quotes are not
escaped; the record fields reaching repr in the scripts are plain strings). -/
def pyRepr : Json → String
  | .null => "None"
  | .bool b => if b then "True" else "False"
  | .num n => toString n
  | .str s => "'" ++ s ++ "'"
  | .arr es => "[" ++ pyReprList es ++ "]"
  | .obj fs => "\x7b" ++ pyReprFields fs ++ "\x7d"

/-- Comma-separated reprs of list elements. -/
def pyReprList : List Json → String
  | [] => ""
  | [x] => pyRepr x
  | x :: xs => pyRepr x ++ ", " ++ pyReprList xs

/-- Comma-separated reprs of dict items. -/
def pyReprFields : List (String × Json) → String
  | [] => ""
  | [(k, v)] => "'" ++ k ++ "': " ++ pyRepr v
  | (k, v) :: xs => "'" ++ k ++ "': " ++ pyRepr v ++ ", " ++ pyReprFields xs
end

/-- Python str() of a JSON value: identity on strings, repr otherwise. -/
def pyStr : Json → String
  | .str s => s
  | j => pyRepr j

/-- Python str() of an optional JSON value; str(None) is "None". -/
def pyStrOpt : Option Json → String
  | some j => pyStr j
  | none => "None"

/-- Python expression (v or ""): v when truthy, else the empty string. -/
def pyOrStrEmpty (v : Json) : Json :=
  if pyTruthy v then v else .str ""

/-- Characters treated as whitespace by Python str.split and str.strip
(ASCII subset; the log content is ASCII). -/
def is_py_space (c : Char) : Bool :=
  c == ' ' || c == '\t' || c == '\n' || c == '\r' ||
  c == Char.ofNat 11 || c == Char.ofNat 12

/-- Accumulating splitter for Python str.split() (split on whitespace runs,
no empty fields). -/
def py_split_aux (acc : List Char) : List Char → List (List Char)
  | [] => if acc.isEmpty then [] else [acc.reverse]
  | c :: rest =>
    if is_py_space c then
      if acc.isEmpty then py_split_aux [] rest
      else acc.reverse :: py_split_aux [] rest
    else py_split_aux (c :: acc) rest

/-- Python text.split(): whitespace-run separated fields. -/
def py_split (s : String) : List String :=
  (py_split_aux [] s.data).map String.mk

/-- Python sep.join(xs). -/
def join_sep (sep : String) : List String → String
  | [] => ""
  | [x] => x
  | x :: xs => x ++ sep ++ join_sep sep xs

/-- Python text.strip(): remove leading and trailing whitespace. -/
def py_strip (s : String) : String :=
  String.mk (((s.data.dropWhile is_py_space).reverse.dropWhile is_py_space).reverse)

/-- ASCII lower-casing of one character (Python str.lower on the ASCII inputs
the scripts compare). -/
def ascii_lower (c : Char) : Char :=
  if 'A' ≤ c ∧ c ≤ 'Z' then Char.ofNat (c.toNat + 32) else c

/-- Python text.lower(). -/
def py_lower (s : String) : String :=
  String.mk (s.data.map ascii_lower)

/-- Python prefix test text.startswith(pre). -/
def py_startswith (s pre : String) : Bool :=
  pre.data.isPrefixOf s.data

/-- Python slice text[:stop] with a possibly negative stop index. -/
def py_slice_to (s : String) (stop : Int) : String :=
  if 0 ≤ stop then String.mk (s.data.take stop.toNat)
  else String.mk (s.data.take (s.length - min s.length stop.natAbs))

/-- session_monitor.normalize_whitespace: collapse whitespace runs to single
spaces via " ".join(text.split()). -/
def normalize_whitespace (text : String) : String :=
  join_sep " " (py_split text)

/-- session_monitor.truncate: return text unchanged when its length is within
limit, else the slice text[:limit - 3] followed by an ellipsis marker.
The Python default limit is 100; call sites pass it explicitly here. -/
def truncate (text : String) (limit : Int) : String :=
  if (text.length : Int) ≤ limit then text
  else py_slice_to text (limit - 3) ++ "..."

/-- session_monitor.extract_message_text inner loop over the content list:
first dict item whose "text" field is a string with non-empty strip wins. -/
def extract_text_from_content : List Json → String
  | [] => ""
  | .obj item :: rest =>
    (match jGet item "text" with
     | some (.str t) =>
       if py_strip t != "" then normalize_whitespace t
       else extract_text_from_content rest
     | _ => extract_text_from_content rest)
  | _ :: rest => extract_text_from_content rest

/-- session_monitor.extract_message_text: first non-empty normalized text
fragment of payload["content"], or "" when content is not a list. -/
def extract_message_text (payload : JObj) : String :=
  match jGetD payload "content" (.arr []) with
  | .arr content => extract_text_from_content content
  | _ => ""

/-- session_monitor.summarize_event: fixed per-record-type one-line summary
policy.  The top-level argument is the parsed JSON object of one log line. -/
def summarize_event (obj : JObj) : String :=
  let event_type := jGet obj "type"
  if jEqStrOpt event_type "session_meta" then
    match jGetD obj "payload" (.obj []) with
    | .obj payload => "session start cwd=" ++ pyStr (jGetD payload "cwd" (.str ""))
    | _ => "session start"
  else if jEqStrOpt event_type "turn_context" then
    match jGetD obj "payload" (.obj []) with
    | .obj payload => "turn cwd=" ++ pyStr (jGetD payload "cwd" (.str ""))
    | _ => "turn context"
  else if jEqStrOpt event_type "response_item" then
    match jGetD obj "payload" (.obj []) with
    | .obj payload =>
      let item_type := jGet payload "type"
      if jEqStrOpt item_type "function_call" then
        "tool call " ++ pyStr (jGetD payload "name" (.str "unknown"))
      else if jEqStrOpt item_type "function_call_output" then "tool output"
      else if jEqStrOpt item_type "reasoning" then "reasoning item"
      else if jEqStrOpt item_type "message" then
        let role := pyStr (jGetD payload "role" (.str "unknown"))
        let snippet := extract_message_text payload
        if snippet != "" then "message " ++ role ++ ": " ++ truncate snippet 100
        else "message " ++ role
      else "response item " ++ pyStrOpt item_type
    | _ => "response item"
  else if jEqStrOpt event_type "event_msg" then
    match jGetD obj "payload" (.obj []) with
    | .obj payload =>
      let msg_type := jGetD payload "type" (.str "")
      if jEqStr msg_type "token_count" then ""
      else if pyTruthy msg_type then "event " ++ pyStr msg_type
      else "event message"
    | _ => "event message"
  else
    match event_type with
    | some et => if pyTruthy et then pyStr et else ""
    | none => ""

/-- session_monitor.SessionRecord. -/
structure SessionRecord where
  session_id : String
  started_at : String
  cwd : String
  role : String
  parent_thread_id : String
  depth : String
  git_branch : String
  log_path : String
deriving DecidableEq

/-- session_monitor.read_session_meta over the lines of one log resource:
skip blank lines, skip lines json.loads rejects, return the payload of the
first record of type session_meta whose payload is a dict.  The parse
parameter models json.loads (none on JSONDecodeError). -/
def read_session_meta (parse : String → Option JObj) : List String → Option JObj
  | [] => none
  | line :: rest =>
    let stripped := py_strip line
    if stripped == "" then read_session_meta parse rest
    else
      match parse stripped with
      | none => read_session_meta parse rest
      | some obj =>
        if jEqStrOpt (jGet obj "type") "session_meta" then
          match jGetD obj "payload" (.obj []) with
          | .obj payload => some payload
          | _ => read_session_meta parse rest
        else read_session_meta parse rest

/-- Coerce a JSON value known to be a dict to its fields, else the empty dict
(the isinstance(x, dict) guards of to_session_record). -/
def jAsObj : Json → JObj
  | .obj fs => fs
  | _ => []

/-- session_monitor.to_session_record: reject a meta payload missing id,
timestamp or cwd; classify the role from the nested thread_spawn descriptor. -/
def to_session_record (log_path : String) (meta : JObj) : Option SessionRecord :=
  let cwd := pyStr (jGetD meta "cwd" (.str ""))
  let session_id := py_strip (pyStr (jGetD meta "id" (.str "")))
  let started_at := py_strip (pyStr (jGetD meta "timestamp" (.str "")))
  if session_id == "" || started_at == "" || cwd == "" then none
  else
    let source := jAsObj (jGetD meta "source" (.obj []))
    let subagent := jAsObj (jGetD source "subagent" (.obj []))
    let thread_spawn := jAsObj (jGetD subagent "thread_spawn" (.obj []))
    let role := if thread_spawn.isEmpty then "primary" else "subagent"
    let parent_thread_id := pyStr (pyOrStrEmpty (jGetD thread_spawn "parent_thread_id" (.str "")))
    let depth := pyStr (pyOrStrEmpty (jGetD thread_spawn "depth" (.str "")))
    let git_obj := jAsObj (jGetD meta "git" (.obj []))
    let git_branch := pyStr (pyOrStrEmpty (jGetD git_obj "branch" (.str "")))
    some
      { session_id := session_id
        started_at := started_at
        cwd := cwd
        role := role
        parent_thread_id := parent_thread_id
        depth := depth
        git_branch := git_branch
        log_path := log_path }

/-- Python str.replace("Z", "+00:00") specialised to the single character
pattern used by parse_iso (String.replace itself is not kernel-reducible). -/
def replace_Z_offset : List Char → List Char
  | [] => []
  | c :: rest =>
    if c = 'Z' then '+' :: '0' :: '0' :: ':' :: '0' :: '0' :: replace_Z_offset rest
    else c :: replace_Z_offset rest

/-- session_monitor.parse_iso: normalize a trailing Z suffix and parse.  The
fromiso parameter models datetime.fromisoformat, returning a comparable
instant or none (ValueError) when the string is not ISO-8601 parseable. -/
def parse_iso (fromiso : String → Option Int) (ts : String) : Option Int :=
  fromiso (String.mk (replace_Z_offset ts.data))

/-- One filter step of discover_sessions: meta extraction, record conversion
and project-root containment.  The within parameter models
is_within_root(project_root, cwd), whose realpath and commonpath calls touch
the filesystem. -/
def discover_one (parse : String → Option JObj) (within : String → Bool)
    (file : String × List String) : Option SessionRecord :=
  match read_session_meta parse file.2 with
  | none => none
  | some meta =>
    match to_session_record file.1 meta with
    | none => none
    | some record => if within record.cwd then some record else none

/-- session_monitor.discover_sessions: filter and classify every log resource,
then sort by parsed start time, descending.  Computing the sort key raises
ValueError (modelled as the error case) when any kept record has a start
timestamp that fromisoformat rejects. -/
def discover_sessions (parse : String → Option JObj) (within : String → Bool)
    (fromiso : String → Option Int) (files : List (String × List String)) :
    Except String (List SessionRecord) :=
  let results := files.filterMap (discover_one parse within)
  match results.mapM (fun r => (parse_iso fromiso r.started_at).map (fun k => (k, r))) with
  | none => .error "ValueError: Invalid isoformat string"
  | some keyed =>
    .ok ((List.insertionSort (fun a b : Int × SessionRecord => b.1 ≤ a.1) keyed).map Prod.snd)

/-! Incremental tail engine (session_monitor.command_follow poll body). -/

/-- Seek to a stored offset, read to end, and report the position after the
read, as the Python text file object behaves: an offset at or before the end
reads the remaining content and ends at end-of-file; an offset beyond the end
reads nothing and tell() still reports that same offset (observed CPython
behaviour; the source performs no clipping or reset of its own). -/
def seek_read_tell (content : List Char) (offset : Nat) : List Char × Nat :=
  if offset ≤ content.length then (content.drop offset, content.length)
  else ([], offset)

/-- Accumulating splitter for Python file-object line iteration: lines keep
their trailing newline; a final incomplete line is yielded without one. -/
def split_lines_aux (acc : List Char) : List Char → List (List Char)
  | [] => if acc.isEmpty then [] else [acc.reverse]
  | c :: rest =>
    if c = '\n' then (acc.reverse ++ ['\n']) :: split_lines_aux [] rest
    else split_lines_aux (c :: acc) rest

/-- Python file-object line iteration over a chunk of text. -/
def split_lines (cs : List Char) : List (List Char) :=
  split_lines_aux [] cs

/-- The per-line emission step of the tail loop: parse the line, summarize it,
and emit one formatted output line when the summary is non-empty.  The record
parameter is cache.get(path), the discovery record for this resource. -/
def tail_emit_line (parse : String → Option JObj) (record : Option SessionRecord)
    (path : String) (lineCs : List Char) : Option String :=
  match parse (String.mk lineCs) with
  | none => none
  | some obj =>
    let summary := summarize_event obj
    if summary == "" then none
    else
      let ts := pyStr (jGetD obj "timestamp" (.str ""))
      some
        (match record with
         | some r =>
           ts ++ " | " ++ r.session_id ++ " | " ++ r.role ++ " | " ++ r.cwd ++ " | " ++
             summary ++ " | " ++ path
         | none => ts ++ " | unknown | " ++ summary ++ " | " ++ path)

/-- One poll of one tracked resource in command_follow: seek to the stored
offset, emit one line per newly read line with a non-empty summary, and store
the position reported after the read as the new offset. -/
def tail_poll (parse : String → Option JObj) (record : Option SessionRecord)
    (path : String) (content : List Char) (offset : Nat) : List String × Nat :=
  let read := seek_read_tell content offset
  ((split_lines read.1).filterMap (tail_emit_line parse record path), read.2)

/-- N complete lines joined into the chunk a writer appends: each line followed
by one newline character. -/
def joined_lines (ls : List (List Char)) : List Char :=
  ls.foldr (fun l acc => l ++ '\n' :: acc) []

/-- Whether one appended line is dropped by the tail loop: json.loads rejects
it, or its summary is empty. -/
def tail_line_bad (parse : String → Option JObj) (l : List Char) : Prop :=
  parse (String.mk (l ++ ['\n'])) = none ∨
    (∃ obj, parse (String.mk (l ++ ['\n'])) = some obj ∧ summarize_event obj = "")

/-! git_coordination.py -/

/-- git_coordination.BranchDelta. -/
structure BranchDelta where
  branch : String
  ahead_of_base : Int
  behind_base : Int
deriving DecidableEq

/-- git_coordination.DEFAULT_MAIN_CANDIDATES. -/
def DEFAULT_MAIN_CANDIDATES : List String := ["main", "master", "trunk"]

/-- git_coordination.normalize_base_branch_name: strip a leading origin/
remote qualifier. -/
def normalize_base_branch_name (base_ref : String) : String :=
  if py_startswith base_ref "origin/" then base_ref.drop 7 else base_ref

/-- git_coordination.detect_base_ref, parameterised by the VCS query results:
the local branch list, the ref-existence query, the stripped stdout of
symbolic-ref refs/remotes/origin/HEAD, and the stripped stdout of
rev-parse abbrev-ref HEAD. -/
def detect_base_ref (branches : List String) (ref_exists : String → Bool)
    (remote_head : String) (current : String) : Except String String :=
  match DEFAULT_MAIN_CANDIDATES.find? (fun c => branches.contains c) with
  | some c => .ok c
  | none =>
    match DEFAULT_MAIN_CANDIDATES.find? (fun c => ref_exists ("origin/" ++ c)) with
    | some c => .ok ("origin/" ++ c)
    | none =>
      let viaRemoteHead : Option String :=
        if py_startswith remote_head "refs/remotes/" then
          let candidate := remote_head.drop 13
          if ref_exists candidate then some candidate else none
        else none
      match viaRemoteHead with
      | some c => .ok c
      | none =>
        if current != "" && current != "HEAD" then .ok current
        else .error "Unable to detect a base branch/ref. Pass --main-branch explicitly."

/-- git_coordination.choose_base_ref: an explicit non-auto request is used as
given when it exists, qualified with origin/ when only the remote form exists,
and is a fatal error otherwise; auto falls through to detection. -/
def choose_base_ref (branches : List String) (ref_exists : String → Bool)
    (remote_head : String) (current : String) (requested : String) :
    Except String String :=
  let req := py_strip requested
  if req != "" && py_lower req != "auto" then
    if ref_exists req then .ok req
    else
      let remote_requested := "origin/" ++ req
      if ref_exists remote_requested then .ok remote_requested
      else
        .error ("Base branch/ref '" ++ req ++ "' does not exist locally or as '" ++
          remote_requested ++ "'.")
  else detect_base_ref branches ref_exists remote_head current

/-- Accumulator loop of digits_to_nat. -/
def digits_to_nat_go : List Char → Nat → Option Nat
  | [], acc => some acc
  | c :: rest, acc =>
    if c.isDigit then digits_to_nat_go rest (acc * 10 + (c.toNat - 48))
    else none

/-- Digit run to number, none when any character is not a decimal digit or the
run is empty. -/
def digits_to_nat : List Char → Option Nat
  | [] => none
  | cs => digits_to_nat_go cs 0

/-- Python int(s) on a decimal literal: optional sign after stripping
whitespace; none models the ValueError raise. -/
def py_int (s : String) : Option Int :=
  match (py_strip s).data with
  | '-' :: rest => (digits_to_nat rest).map (fun n => -(n : Int))
  | '+' :: rest => (digits_to_nat rest).map (fun n => (n : Int))
  | t => (digits_to_nat t).map (fun n => (n : Int))

/-- Ascending comparison on the (behind, ahead, branch) sort key of
branch_deltas. -/
def delta_key_le (d e : BranchDelta) : Bool :=
  if d.behind_base != e.behind_base then decide (d.behind_base < e.behind_base)
  else if d.ahead_of_base != e.ahead_of_base then decide (d.ahead_of_base < e.ahead_of_base)
  else decide (d.branch ≤ e.branch)

/-- The list.sort(key, reverse=True) relation of branch_deltas: d precedes e
when the key of e is at most the key of d (stable descending order). -/
def delta_sort_rel (d e : BranchDelta) : Prop :=
  delta_key_le e d = true

instance : DecidableRel delta_sort_rel :=
  fun d e => inferInstanceAs (Decidable (delta_key_le e d = true))

/-- One iteration of the branch loop of git_coordination.branch_deltas for
one branch: skip the normalized base branch (continue), skip a branch whose
count output does not split into exactly two fields (continue), parse both
fields with int() (whose ValueError propagates), else yield the delta.  The
rev_list_out parameter maps a branch to the stripped stdout of
rev-list --left-right --count branch...base_ref. -/
def delta_step (base_branch_name : String) (rev_list_out : String → String)
    (branch : String) : Except String (Option BranchDelta) :=
  if branch == base_branch_name then .ok none
  else
    match py_split (rev_list_out branch) with
    | [p0, p1] =>
      match py_int p0, py_int p1 with
      | some ahead, some behind => .ok (some ⟨branch, ahead, behind⟩)
      | _, _ => .error "ValueError: invalid literal for int() with base 10"
    | _ => .ok none

/-- The branch loop of git_coordination.branch_deltas: run delta_step on each
branch in order, collecting deltas; an error aborts the whole loop. -/
def branch_deltas_loop (base_branch_name : String) (rev_list_out : String → String) :
    List String → Except String (List BranchDelta)
  | [] => .ok []
  | branch :: rest =>
    match delta_step base_branch_name rev_list_out branch with
    | .error e => .error e
    | .ok none => branch_deltas_loop base_branch_name rev_list_out rest
    | .ok (some d) =>
      (branch_deltas_loop base_branch_name rev_list_out rest).map (fun ds => d :: ds)

/-- git_coordination.branch_deltas: compute the per-branch deltas against the
base ref, then sort by (behind desc, ahead desc, name desc). -/
def branch_deltas (branches : List String) (base_ref : String)
    (rev_list_out : String → String) : Except String (List BranchDelta) :=
  (branch_deltas_loop (normalize_base_branch_name base_ref) rev_list_out branches).map
    (List.insertionSort delta_sort_rel)

/-- Whether a count query output consists of exactly two whitespace-separated
fields that both parse as ints (the case branch_deltas turns into a delta). -/
def two_int_fields (o : String) : Bool :=
  match py_split o with
  | [p0, p1] => (py_int p0).isSome && (py_int p1).isSome
  | _ => false

/-- Whether a count query output cannot make int() raise inside branch_deltas:
it does not split into exactly two fields, or both fields parse as ints. -/
def count_query_safe (o : String) : Bool :=
  match py_split o with
  | [p0, p1] => (py_int p0).isSome && (py_int p1).isSome
  | _ => true

/-- git_coordination.categorize_branch: the pure ahead/behind category
mapping. -/
def categorize_branch (delta : BranchDelta) : String :=
  if delta.ahead_of_base = 0 ∧ delta.behind_base > 0 then "stale: rebase before new work"
  else if delta.ahead_of_base > 0 ∧ delta.behind_base > 0 then "diverged: rebase before merge"
  else if delta.ahead_of_base > 0 ∧ delta.behind_base = 0 then "ahead only: candidate to merge"
  else "in sync with base"

/-! heartbeat_monitor.py -/

/-- heartbeat_monitor.ActiveSession. -/
structure ActiveSession where
  session_id : String
  role : String
  branch : String
  parent_thread_id : String
  started_at : String
  last_timestamp : String
  last_summary : String
  log_path : String
deriving DecidableEq

/-- The normalized topology dict produced by heartbeat_monitor
normalize_topology, the unit compared for change detection. -/
structure Topology where
  base_ref : String
  root_dirty : Bool
  dirty_worktrees : List String
  prunable_worktrees : List String
  diverged : List String
deriving DecidableEq

/-- heartbeat_monitor.summarize_roles: primary and subagent counts. -/
def summarize_roles (active : List ActiveSession) : Nat × Nat :=
  (active.countP (fun item => item.role == "primary"),
   active.countP (fun item => item.role == "subagent"))

/-- Python sorted(set(a) - set(b)): the members of a absent from b, without
duplicates, in ascending order. -/
def sorted_set_diff (a b : List String) : List String :=
  List.insertionSort (· ≤ ·) ((a.filter (fun x => decide (x ∉ b))).dedup)

/-- Python bool rendering inside an f-string. -/
def py_bool_str (b : Bool) : String :=
  if b then "True" else "False"

/-- heartbeat_monitor.emit_session_delta: the delta.sessions record plus one
detail line for each of the first eight added ids in sorted order.  The
KeyError sentinel marks the lookup Python would raise on; it is unreachable
from the aggregator cycle, where every added id names an active session. -/
def emit_session_delta (ts : String) (prev_ids cur_ids : List String)
    (active : List ActiveSession) : List String :=
  let added := sorted_set_diff cur_ids prev_ids
  let removed := sorted_set_diff prev_ids cur_ids
  let header := ts ++ " | delta.sessions | total=" ++ toString cur_ids.length ++
    " | added=" ++ (if added.isEmpty then "-" else join_sep "," added) ++
    " | removed=" ++ (if removed.isEmpty then "-" else join_sep "," removed)
  let details := (added.take 8).map (fun sid =>
    match (active.reverse.find? (fun item => item.session_id == sid)) with
    | some item =>
      ts ++ " | delta.sessions.detail | " ++ item.session_id ++ " | role=" ++ item.role ++
        " | branch=" ++ item.branch ++ " | started=" ++ item.started_at ++
        " | last=" ++ item.last_timestamp
    | none => "KeyError: " ++ sid)
  header :: details

/-- heartbeat_monitor.emit_heartbeat: the aggregate-count heartbeat line plus
the abbreviated listing of the five most recently started active sessions. -/
def emit_heartbeat (ts : String) (active : List ActiveSession) (topology : Topology) :
    List String :=
  let counts := summarize_roles active
  let header := ts ++ " | heartbeat | active=" ++ toString active.length ++
    " | primary=" ++ toString counts.1 ++ " | subagent=" ++ toString counts.2 ++
    " | base=" ++ topology.base_ref ++ " | root_dirty=" ++ py_bool_str topology.root_dirty ++
    " | dirty_worktrees=" ++ toString topology.dirty_worktrees.length ++
    " | diverged=" ++ toString topology.diverged.length
  let hot := active.take 5
  if hot.isEmpty then [header, ts ++ " | heartbeat.sessions | none"]
  else
    let pieces := hot.map (fun item =>
      item.session_id.take 8 ++ ":" ++ (if item.role == "primary" then "p" else "s") ++
        ":" ++ item.branch)
    [header, ts ++ " | heartbeat.sessions | " ++ join_sep ", " pieces]

/-- JSON string rendering used by json.dumps on the topology dict (escaping
approximated: branch names and paths carry no quotes or backslashes). -/
def json_str (s : String) : String := "\"" ++ s ++ "\""

/-- JSON list-of-strings rendering used by json.dumps on the topology dict. -/
def json_str_list (xs : List String) : String :=
  "[" ++ join_sep ", " (xs.map json_str) ++ "]"

/-- json.dumps(topology, sort_keys=True): keys in alphabetical order. -/
def json_dumps_topology (t : Topology) : String :=
  "\x7b\"base_ref\": " ++ json_str t.base_ref ++
    ", \"dirty_worktrees\": " ++ json_str_list t.dirty_worktrees ++
    ", \"diverged\": " ++ json_str_list t.diverged ++
    ", \"prunable_worktrees\": " ++ json_str_list t.prunable_worktrees ++
    ", \"root_dirty\": " ++ (if t.root_dirty then "true" else "false") ++ "\x7d"

/-- The delta.git line of the aggregator cycle. -/
def topology_delta_line (ts : String) (topology : Topology) : String :=
  ts ++ " | delta.git | " ++ json_dumps_topology topology

/-- The in-memory state the heartbeat_monitor main loop carries between
cycles. -/
structure LoopState where
  prev_session_ids : List String
  prev_topology : Option Topology
  next_heartbeat : ℚ
deriving DecidableEq

/-- The state at entry of the first cycle: no previous ids, no previous
topology, heartbeat deadline zero. -/
def initial_loop_state : LoopState :=
  { prev_session_ids := [], prev_topology := none, next_heartbeat := 0 }

/-- The three output groups of one successful aggregator cycle, in emission
order: session-delta lines, topology-delta lines, heartbeat lines; paired
with the state for the next cycle.  now_mono is the time.monotonic() sample
taken for the heartbeat-due check. -/
def run_cycle_parts (heartbeat_interval : ℚ) (st : LoopState) (ts : String)
    (active : List ActiveSession) (topology : Topology) (now_mono : ℚ) :
    (List String × List String × List String) × LoopState :=
  let session_ids := active.map (fun item => item.session_id)
  let deltaOut :=
    if session_ids ≠ st.prev_session_ids then
      (emit_session_delta ts st.prev_session_ids session_ids active, session_ids)
    else ([], st.prev_session_ids)
  let topoOut :=
    if st.prev_topology ≠ some topology then ([topology_delta_line ts topology], some topology)
    else ([], st.prev_topology)
  let hbOut :=
    if st.next_heartbeat ≤ now_mono then
      (emit_heartbeat ts active topology, now_mono + max heartbeat_interval 1)
    else ([], st.next_heartbeat)
  ((deltaOut.1, topoOut.1, hbOut.1),
   { prev_session_ids := deltaOut.2, prev_topology := topoOut.2, next_heartbeat := hbOut.2 })

/-- The lines printed by one successful aggregator cycle, in order, with the
next state. -/
def run_cycle_ok (heartbeat_interval : ℚ) (st : LoopState) (ts : String)
    (active : List ActiveSession) (topology : Topology) (now_mono : ℚ) :
    List String × LoopState :=
  let parts := run_cycle_parts heartbeat_interval st ts active topology now_mono
  (parts.1.1 ++ parts.1.2.1 ++ parts.1.2.2, parts.2)

/-- One single-shot (--once) run of heartbeat_monitor.main: on a cycle
failure, one error line and exit status 2; on success, the cycle output and
exit status 0.  load_result is the outcome of the session-and-topology
gathering step. -/
def run_once (heartbeat_interval : ℚ) (ts : String)
    (load_result : Except String (List ActiveSession × Topology)) (now_mono : ℚ) :
    List String × Int :=
  match load_result with
  | .error e => ([ts ++ " | error | " ++ e], 2)
  | .ok (active, topology) =>
    ((run_cycle_ok heartbeat_interval initial_loop_state ts active topology now_mono).1, 0)

/-! Specification-side models used to compare claim wording with the code. -/

/-- Modelled from the claim wording for truncate (spec section 4.3): collapse
all whitespace runs to single spaces first, then cut to limit minus three
characters plus an ellipsis when the collapsed length exceeds the limit. -/
def truncate_claim_model (text : String) (limit : Int) : String :=
  let collapsed := normalize_whitespace text
  if (collapsed.length : Int) ≤ limit then collapsed
  else py_slice_to collapsed (limit - 3) ++ "..."

/-! Concrete collaborator instances used to evaluate the theorems on explicit
inputs. -/

/-- A two-line json.loads table: line G parses to a session_meta record with an
ISO start timestamp, line B to one whose timestamp is non-empty but not
ISO-8601 parseable; both working directories lie inside the project root. -/
def sample_parse : String → Option JObj := fun s =>
  if s == "G" then
    some [("type", Json.str "session_meta"),
          ("payload", Json.obj
            [("id", Json.str "s1"),
             ("timestamp", Json.str "2024-01-01T00:00:00Z"),
             ("cwd", Json.str "/x/proj/a")])]
  else if s == "B" then
    some [("type", Json.str "session_meta"),
          ("payload", Json.obj
            [("id", Json.str "s2"),
             ("timestamp", Json.str "not-a-timestamp"),
             ("cwd", Json.str "/x/proj/b")])]
  else none

/-- Containment in the project root /x/proj for the sample inputs. -/
def sample_within : String → Bool := fun cwd => py_startswith cwd "/x/proj"

/-- A one-point datetime.fromisoformat table accepting only the normalized
form of the sample ISO timestamp. -/
def sample_fromiso : String → Option Int := fun s =>
  if s == "2024-01-01T00:00:00+00:00" then some 1704067200 else none

/-- The session record discovery extracts from sample line G. -/
def sample_record : SessionRecord :=
  { session_id := "s1", started_at := "2024-01-01T00:00:00Z", cwd := "/x/proj/a",
    role := "primary", parent_thread_id := "", depth := "", git_branch := "",
    log_path := "log1" }

/-- A json.loads table for tail-loop lines: the complete line g parses to a
turn_context record (non-empty summary); every other line fails to parse. -/
def tail_sample_parse : String → Option JObj := fun s =>
  if s == "g\n" then
    some [("type", Json.str "turn_context"),
          ("payload", Json.obj [("cwd", Json.str "/w")])]
  else none

/-! Helper lemmas. -/

/-- Splitting a chunk that starts with one complete line yields that line
(newline kept) followed by the split of the remainder. -/
theorem split_lines_aux_complete (l : List Char) (h : '\n' ∉ l) :
    ∀ (rest acc : List Char),
      split_lines_aux acc (l ++ '\n' :: rest) =
        (acc.reverse ++ (l ++ ['\n'])) :: split_lines_aux [] rest := by
  induction l with
  | nil => intro rest acc; simp [split_lines_aux]
  | cons c l ih =>
    intro rest acc
    have hc : ¬(c = '\n') := fun e => h (e ▸ List.mem_cons_self c l)
    have hl : '\n' ∉ l := fun hm => h (List.mem_cons_of_mem _ hm)
    show split_lines_aux acc (c :: (l ++ '\n' :: rest)) = _
    rw [split_lines_aux]
    rw [if_neg hc]
    rw [ih hl rest (c :: acc)]
    simp

/-- Splitting the chunk formed by appending complete lines recovers exactly
those lines, each with its newline. -/
theorem split_lines_joined (ls : List (List Char)) (h : ∀ l ∈ ls, '\n' ∉ l) :
    split_lines (joined_lines ls) = ls.map (fun l => l ++ ['\n']) := by
  induction ls with
  | nil => rfl
  | cons l ls ih =>
    have h1 : '\n' ∉ l := h l (List.mem_cons_self _ _)
    have h2 : ∀ x ∈ ls, '\n' ∉ x := fun x hx => h x (List.mem_cons_of_mem _ hx)
    show split_lines_aux [] (l ++ '\n' :: joined_lines ls) = _
    rw [split_lines_aux_complete l h1 (joined_lines ls) []]
    have ihr : split_lines_aux [] (joined_lines ls) = ls.map (fun x => x ++ ['\n']) := ih h2
    rw [ihr]
    simp

/-- The tail loop drops a line exactly when json.loads rejects it or its
summary is empty. -/
theorem tail_emit_line_eq_none_iff (parse : String → Option JObj)
    (record : Option SessionRecord) (path : String) (cs : List Char) :
    tail_emit_line parse record path cs = none ↔
      (parse (String.mk cs) = none ∨
        ∃ obj, parse (String.mk cs) = some obj ∧ summarize_event obj = "") := by
  unfold tail_emit_line
  cases hp : parse (String.mk cs) with
  | none => simp
  | some obj =>
    by_cases hs : summarize_event obj = ""
    · simp [hs]
    · simp [hs]

/-- Emission count over a list of complete lines: at most one output line per
input line, with a strict shortfall exactly when some line is dropped. -/
theorem tail_filterMap_count (parse : String → Option JObj)
    (record : Option SessionRecord) (path : String) (ls : List (List Char)) :
    ((ls.map (fun l => l ++ ['\n'])).filterMap (tail_emit_line parse record path)).length ≤
        ls.length ∧
      (((ls.map (fun l => l ++ ['\n'])).filterMap (tail_emit_line parse record path)).length <
          ls.length ↔
        ∃ l ∈ ls, tail_line_bad parse l) := by
  induction ls with
  | nil => simp
  | cons l ls ih =>
    simp only [List.map_cons]
    cases he : tail_emit_line parse record path (l ++ ['\n']) with
    | none =>
      have hbad : tail_line_bad parse l :=
        (tail_emit_line_eq_none_iff parse record path (l ++ ['\n'])).mp he
      rw [List.filterMap_cons_none he]
      refine ⟨le_trans ih.1 (Nat.le_succ _), ?_, ?_⟩
      · intro _; exact ⟨l, List.mem_cons_self _ _, hbad⟩
      · intro _; exact lt_of_le_of_lt ih.1 (Nat.lt_succ_self _)
    | some s =>
      have hgood : ¬tail_line_bad parse l := by
        intro hb
        have := (tail_emit_line_eq_none_iff parse record path (l ++ ['\n'])).mpr hb
        rw [he] at this
        exact Option.noConfusion this
      rw [List.filterMap_cons_some he]
      simp only [List.length_cons]
      refine ⟨Nat.succ_le_succ ih.1, ?_⟩
      rw [Nat.succ_lt_succ_iff, ih.2]
      constructor
      · rintro ⟨x, hx, hbx⟩; exact ⟨x, List.mem_cons_of_mem _ hx, hbx⟩
      · rintro ⟨x, hx, hbx⟩
        rcases List.mem_cons.mp hx with rfl | hx2
        · exact absurd hbx hgood
        · exact ⟨x, hx2, hbx⟩

/-- A delta yielded by delta_step is for the examined branch, which is not the
normalized base branch. -/
theorem delta_step_ok_some (base : String) (rev : String → String) (b : String)
    (d : BranchDelta) (h : delta_step base rev b = .ok (some d)) :
    d.branch = b ∧ b ≠ base := by
  unfold delta_step at h
  split at h
  · exact absurd h (by simp)
  · next hb =>
    split at h
    · split at h
      · cases h
        exact ⟨rfl, fun e => hb (beq_iff_eq.mpr e)⟩
      · exact Except.noConfusion h
    · exact absurd h (by simp)

/-- A branch whose count output cannot make int() raise never aborts the
loop. -/
theorem delta_step_safe (base : String) (rev : String → String) (b : String)
    (hsafe : count_query_safe (rev b) = true) :
    ∃ r, delta_step base rev b = .ok r := by
  unfold delta_step
  split
  · exact ⟨none, rfl⟩
  · unfold count_query_safe at hsafe
    split at hsafe
    · rcases Option.isSome_iff_exists.mp (Bool.and_elim_left hsafe) with ⟨a, ha⟩
      rcases Option.isSome_iff_exists.mp (Bool.and_elim_right hsafe) with ⟨c, hc⟩
      exact ⟨some ⟨b, a, c⟩, by simp [ha, hc]⟩
    · exact ⟨none, rfl⟩

/-- A non-base branch whose count output has two int fields yields a delta
naming it. -/
theorem delta_step_two_fields (base : String) (rev : String → String) (b : String)
    (hbne : b ≠ base) (htwo : two_int_fields (rev b) = true) :
    ∃ a c, delta_step base rev b = .ok (some ⟨b, a, c⟩) := by
  unfold two_int_fields at htwo
  split at htwo
  · next p0 p1 heq =>
    rcases Option.isSome_iff_exists.mp (Bool.and_elim_left htwo) with ⟨a, ha⟩
    rcases Option.isSome_iff_exists.mp (Bool.and_elim_right htwo) with ⟨c, hc⟩
    refine ⟨a, c, ?_⟩
    unfold delta_step
    rw [if_neg (by simpa using hbne), heq]
    simp [ha, hc]
  · exact absurd htwo (by simp)

/-- Every delta produced by the branch loop names a branch other than the
normalized base branch. -/
theorem branch_deltas_loop_mem (base : String) (rev : String → String) :
    ∀ (branches : List String) (ds : List BranchDelta),
      branch_deltas_loop base rev branches = .ok ds → ∀ d ∈ ds, d.branch ≠ base := by
  intro branches
  induction branches with
  | nil =>
    intro ds h
    cases h
    intro d hd
    exact absurd hd (List.not_mem_nil d)
  | cons b rest ih =>
    intro ds h
    unfold branch_deltas_loop at h
    split at h
    · exact Except.noConfusion h
    · exact ih ds h
    · next d0 hstep =>
      rcases hloop : branch_deltas_loop base rev rest with e | tail <;> rw [hloop] at h
      · exact Except.noConfusion h
      · have h2 : d0 :: tail = ds := by simpa [Except.map] using h
        obtain ⟨hdb, hbne⟩ := delta_step_ok_some base rev b d0 hstep
        intro d hd
        rw [← h2] at hd
        rcases List.mem_cons.mp hd with rfl | hdm
        · rw [hdb]; exact hbne
        · exact ih tail hloop d hdm

/-- When no count output can make int() raise, the branch loop succeeds and
covers every non-base branch whose output has two int fields. -/
theorem branch_deltas_loop_safe (base : String) (rev : String → String) :
    ∀ branches : List String,
      (∀ b ∈ branches, count_query_safe (rev b) = true) →
      ∃ ds, branch_deltas_loop base rev branches = .ok ds ∧
        ∀ b ∈ branches, b ≠ base → two_int_fields (rev b) = true →
          ∃ d ∈ ds, d.branch = b := by
  intro branches
  induction branches with
  | nil =>
    intro _
    exact ⟨[], rfl, fun b hb => absurd hb (List.not_mem_nil b)⟩
  | cons b rest ih =>
    intro hsafe
    have hsafeb : count_query_safe (rev b) = true := hsafe b (List.mem_cons_self _ _)
    have hsafer : ∀ x ∈ rest, count_query_safe (rev x) = true :=
      fun x hx => hsafe x (List.mem_cons_of_mem _ hx)
    obtain ⟨ds, hds, hcover⟩ := ih hsafer
    obtain ⟨r, hr⟩ := delta_step_safe base rev b hsafeb
    unfold branch_deltas_loop
    rw [hr]
    cases r with
    | none =>
      refine ⟨ds, hds, ?_⟩
      intro x hx hxne hxtwo
      rcases List.mem_cons.mp hx with rfl | hxm
      · obtain ⟨a, c, hstep⟩ := delta_step_two_fields base rev x hxne hxtwo
        rw [hr] at hstep
        exact absurd (Except.ok.inj hstep) (by simp)
      · exact hcover x hxm hxne hxtwo
    | some d0 =>
      rw [hds]
      refine ⟨d0 :: ds, rfl, ?_⟩
      obtain ⟨hdb, _⟩ := delta_step_ok_some base rev b d0 hr
      intro x hx hxne hxtwo
      rcases List.mem_cons.mp hx with rfl | hxm
      · exact ⟨d0, List.mem_cons_self _ _, hdb⟩
      · obtain ⟨d, hdm, hdbx⟩ := hcover x hxm hxne hxtwo
        exact ⟨d, List.mem_cons_of_mem _ hdm, hdbx⟩

/-- Membership of Python sorted(set(a) - set(b)). -/
theorem mem_sorted_set_diff (a b : List String) (x : String) :
    x ∈ sorted_set_diff a b ↔ x ∈ a ∧ x ∉ b := by
  unfold sorted_set_diff
  rw [List.mem_insertionSort, List.mem_dedup, List.mem_filter]
  simp

/-! Claim theorems. -/

/-- Claim C1, code-level evidence of the violation: with stored offset 100 and
a file of size 8 at poll time (the stored offset exceeds the current size,
i.e. the file was truncated), the tail poll seeks past the end, reads
nothing, and stores offset 100 back unchanged.  The stored offset therefore
still exceeds the file size after the poll: the engine neither clips the seek
to the file end (8) nor resets the offset to zero, contradicting the claimed
invariant. -/
theorem c1_truncated_offset_kept :
    tail_poll (fun _ => none) none "p" ("abc\ndef\n" : String).data 100 = ([], 100) ∧
    ("abc\ndef\n" : String).data.length = 8 :=
  ⟨rfl, by decide⟩

/-- Claim C3: for a poll that reads from the end of the previous content
(stored offset = previous length) after N complete lines were appended, the
poll emits at most N lines, strictly fewer exactly when some appended line is
malformed or summarizes to the empty string, and the offset stored after the
poll equals the end-of-file position of the content read. -/
theorem c3_tail_round_trip (parse : String → Option JObj) (record : Option SessionRecord)
    (path : String) (old : List Char) (ls : List (List Char))
    (hcomplete : ∀ l ∈ ls, '\n' ∉ l) :
    (tail_poll parse record path (old ++ joined_lines ls) old.length).2 =
        (old ++ joined_lines ls).length ∧
      (tail_poll parse record path (old ++ joined_lines ls) old.length).1.length ≤
        ls.length ∧
      ((tail_poll parse record path (old ++ joined_lines ls) old.length).1.length <
          ls.length ↔
        ∃ l ∈ ls, tail_line_bad parse l) := by
  have hoff : old.length ≤ (old ++ joined_lines ls).length := by simp
  have hdrop : (old ++ joined_lines ls).drop old.length = joined_lines ls := by simp
  unfold tail_poll seek_read_tell
  rw [if_pos hoff]
  simp only
  rw [hdrop, split_lines_joined ls hcomplete]
  exact ⟨trivial, tail_filterMap_count parse record path ls⟩

/-- Claim C3 witness: two complete lines are appended; line g summarizes
non-empty, line b fails to parse, so exactly one entry is emitted (fewer than
two, with a bad line present) and the stored offset is the new end of file. -/
theorem c3_tail_round_trip_witness :
    (tail_poll tail_sample_parse none "p"
        (("h\n" : String).data ++ joined_lines [['g'], ['b']])
        ("h\n" : String).data.length).2 =
        (("h\n" : String).data ++ joined_lines [['g'], ['b']]).length ∧
      (tail_poll tail_sample_parse none "p"
          (("h\n" : String).data ++ joined_lines [['g'], ['b']])
          ("h\n" : String).data.length).1.length ≤
        ([['g'], ['b']] : List (List Char)).length ∧
      ((tail_poll tail_sample_parse none "p"
            (("h\n" : String).data ++ joined_lines [['g'], ['b']])
            ("h\n" : String).data.length).1.length <
          ([['g'], ['b']] : List (List Char)).length ↔
        ∃ l ∈ ([['g'], ['b']] : List (List Char)), tail_line_bad tail_sample_parse l) :=
  c3_tail_round_trip tail_sample_parse none "p" ("h\n" : String).data [['g'], ['b']]
    (by decide)

/-- Claim C4 counterexample: the count output "x y" is not two counts, yet the
branch is not skipped: int("x") raises ValueError and the whole computation
aborts instead of returning the deltas of the remaining branches. -/
theorem c4_counterexample :
    branch_deltas ["b"] "main" (fun _ => "x y") =
      .error "ValueError: invalid literal for int() with base 10" :=
  rfl

/-- Claim C4 amended: a branch whose count output does not split into exactly
two whitespace-separated fields is skipped and is never fatal; but a two-field
output whose fields are not both int-parseable aborts the whole computation
with ValueError.  Under the hypothesis that no output has two non-int fields,
branch_deltas succeeds and returns a delta for every non-base branch whose
output is two ints. -/
theorem c4_malformed_skipped_amended (branches : List String) (base_ref : String)
    (rev_list_out : String → String)
    (hsafe : ∀ b ∈ branches, count_query_safe (rev_list_out b) = true) :
    ∃ ds, branch_deltas branches base_ref rev_list_out = .ok ds ∧
      ∀ b ∈ branches, b ≠ normalize_base_branch_name base_ref →
        two_int_fields (rev_list_out b) = true → ∃ d ∈ ds, d.branch = b := by
  obtain ⟨ds0, hds0, hcover⟩ :=
    branch_deltas_loop_safe (normalize_base_branch_name base_ref) rev_list_out branches hsafe
  refine ⟨List.insertionSort delta_sort_rel ds0, ?_, ?_⟩
  · unfold branch_deltas
    rw [hds0]
    rfl
  · intro b hb hbne hbtwo
    obtain ⟨d, hdm, hdb⟩ := hcover b hb hbne hbtwo
    exact ⟨d, (List.mem_insertionSort _).mpr hdm, hdb⟩

/-- Claim C4 amended witness: branch b1 has a parseable two-count output,
branch b2 an output of three fields; the computation succeeds and b1 is
covered. -/
theorem c4_malformed_skipped_witness :
    ∃ ds,
      branch_deltas ["b1", "b2"] "main"
          (fun b => if b == "b1" then "1 2" else "garbage three fields") = .ok ds ∧
        ∀ b ∈ ["b1", "b2"], b ≠ normalize_base_branch_name "main" →
          two_int_fields ((fun b => if b == "b1" then "1 2" else "garbage three fields") b) =
            true → ∃ d ∈ ds, d.branch = b :=
  c4_malformed_skipped_amended ["b1", "b2"] "main"
    (fun b => if b == "b1" then "1 2" else "garbage three fields") (by decide)

/-- Claim C5 counterexample: the explicitly requested base ref main exists as
the remote-qualified name origin/main (not as a local name); resolution
returns origin/main, not the requested string verbatim. -/
theorem c5_counterexample :
    choose_base_ref [] (fun r => r == "origin/main") "" "" "main" = .ok "origin/main" ∧
      ("origin/main" : String) ≠ "main" :=
  ⟨rfl, by decide⟩

/-- Claim C5 amended: an explicitly requested base ref (non-empty, not auto in
any case, no surrounding whitespace) is returned verbatim when it exists as a
local name; when it exists only remote-qualified, the remote-qualified name
origin/requested is returned instead; when it exists under neither form,
resolution fails with an error rather than falling back to auto-detection. -/
theorem c5_explicit_base_amended (branches : List String) (ref_exists : String → Bool)
    (remote_head current requested : String)
    (hstrip : py_strip requested = requested) (hne : requested ≠ "")
    (hauto : py_lower requested ≠ "auto") :
    (ref_exists requested = true →
      choose_base_ref branches ref_exists remote_head current requested = .ok requested) ∧
    (ref_exists requested = false → ref_exists ("origin/" ++ requested) = true →
      choose_base_ref branches ref_exists remote_head current requested =
        .ok ("origin/" ++ requested)) ∧
    (ref_exists requested = false → ref_exists ("origin/" ++ requested) = false →
      choose_base_ref branches ref_exists remote_head current requested =
        .error ("Base branch/ref '" ++ requested ++ "' does not exist locally or as '" ++
          ("origin/" ++ requested) ++ "'.")) := by
  have hcond : (requested != "" && py_lower requested != "auto") = true := by
    simp [hne, hauto]
  refine ⟨?_, ?_, ?_⟩
  · intro hex
    unfold choose_base_ref
    rw [hstrip]
    dsimp only
    rw [if_pos hcond, if_pos hex]
  · intro hnex hrex
    unfold choose_base_ref
    rw [hstrip]
    dsimp only
    rw [if_pos hcond, if_neg (by simp [hnex]), if_pos hrex]
  · intro hnex hnrex
    unfold choose_base_ref
    rw [hstrip]
    dsimp only
    rw [if_pos hcond, if_neg (by simp [hnex]), if_neg (by simp [hnrex])]

/-- Claim C5 amended witness: requested ref dev exists locally and is returned
verbatim. -/
theorem c5_explicit_base_witness :
    choose_base_ref [] (fun r => r == "dev") "" "" "dev" = .ok "dev" :=
  (c5_explicit_base_amended [] (fun r => r == "dev") "" "" "dev" (by decide) (by decide)
      (by decide)).1 (by decide)

/-- Appending a string to a packed character list concatenates the data. -/
theorem string_mk_append_data (l : List Char) (t : String) :
    (String.mk l ++ t).data = l ++ t.data := by
  cases t
  rfl

/-- Claim C6 counterexample: truncate does not collapse whitespace runs; on
the input with a double space and limit 100 the code returns the input
unchanged, while the claimed collapse-then-cut mapping returns the collapsed
string. -/
theorem c6_counterexample :
    truncate "a  b" 100 = "a  b" ∧ truncate_claim_model "a  b" 100 = "a b" ∧
      truncate "a  b" 100 ≠ truncate_claim_model "a  b" 100 :=
  ⟨rfl, rfl, by decide⟩

/-- Claim C6 amended: truncate performs no whitespace collapsing of its own
(callers collapse via normalize_whitespace before truncating); a text within
the limit is returned unchanged, and for a limit of at least 3 a longer text
yields exactly limit characters ending in the ellipsis marker. -/
theorem c6_truncate_amended (text : String) (limit : Int) :
    ((text.length : Int) ≤ limit → truncate text limit = text) ∧
      (3 ≤ limit → limit < (text.length : Int) →
        ((truncate text limit).length : Int) = limit ∧
          List.IsSuffix ("..." : String).data (truncate text limit).data) := by
  constructor
  · intro hle
    unfold truncate
    rw [if_pos hle]
  · intro h3 hlt
    unfold truncate
    rw [if_neg (not_le.mpr hlt)]
    unfold py_slice_to
    have h0 : (0 : Int) ≤ limit - 3 := by omega
    rw [if_pos h0]
    have hlt2 : limit < (text.data.length : Int) := hlt
    have htake : (limit - 3).toNat ≤ text.data.length := by omega
    constructor
    · rw [String.length_append]
      have hmk : (String.mk (text.data.take (limit - 3).toNat)).length =
          (text.data.take (limit - 3).toNat).length := rfl
      rw [hmk, List.length_take, min_eq_left htake]
      show (((limit - 3).toNat + 3 : Nat) : Int) = limit
      omega
    · exact ⟨text.data.take (limit - 3).toNat, (string_mk_append_data _ _).symm⟩

set_option maxRecDepth 4096 in
/-- Claim C6 amended witness: a 150-character input with limit 100 yields
exactly 100 characters ending in the ellipsis marker. -/
theorem c6_truncate_witness :
    ((truncate (String.mk (List.replicate 150 'a')) 100).length : Int) = 100 ∧
      List.IsSuffix ("..." : String).data
        (truncate (String.mk (List.replicate 150 'a')) 100).data :=
  (c6_truncate_amended (String.mk (List.replicate 150 'a')) 100).2 (by decide) (by decide)

/-- Claim C7: categorize_branch is the exact pure mapping of the claim, with
the code strings for the four categories: "stale: rebase before new work" for
stale, "diverged: rebase before merge" for diverged, "ahead only: candidate
to merge" for ahead-only and "in sync with base" for in-sync; in particular
(3,0) is ahead-only, (0,2) is stale, (2,2) is diverged and (0,0) is
in-sync. -/
theorem c7_categorize (d : BranchDelta) :
    (0 < d.behind_base → d.ahead_of_base = 0 →
      categorize_branch d = "stale: rebase before new work") ∧
    (0 < d.ahead_of_base → 0 < d.behind_base →
      categorize_branch d = "diverged: rebase before merge") ∧
    (0 < d.ahead_of_base → d.behind_base = 0 →
      categorize_branch d = "ahead only: candidate to merge") ∧
    (¬(0 < d.behind_base ∧ d.ahead_of_base = 0) → ¬(0 < d.ahead_of_base ∧ 0 < d.behind_base) →
      ¬(0 < d.ahead_of_base ∧ d.behind_base = 0) → categorize_branch d = "in sync with base") ∧
    categorize_branch ⟨"x", 3, 0⟩ = "ahead only: candidate to merge" ∧
    categorize_branch ⟨"x", 0, 2⟩ = "stale: rebase before new work" ∧
    categorize_branch ⟨"x", 2, 2⟩ = "diverged: rebase before merge" ∧
    categorize_branch ⟨"x", 0, 0⟩ = "in sync with base" := by
  refine ⟨?_, ?_, ?_, ?_, rfl, rfl, rfl, rfl⟩
  · intro hb ha
    unfold categorize_branch
    rw [if_pos ⟨ha, hb⟩]
  · intro ha hb
    unfold categorize_branch
    rw [if_neg (by omega), if_pos ⟨ha, hb⟩]
  · intro ha hb
    unfold categorize_branch
    rw [if_neg (by omega), if_neg (by omega), if_pos ⟨ha, hb⟩]
  · intro h1 h2 h3
    unfold categorize_branch
    rw [if_neg (by omega), if_neg (by omega), if_neg (by omega)]

/-- Claim C7 witness: the stale case at the concrete pair (ahead, behind) =
(0, 5). -/
theorem c7_categorize_witness :
    categorize_branch ⟨"y", 0, 5⟩ = "stale: rebase before new work" :=
  (c7_categorize ⟨"y", 0, 5⟩).1 (by decide) (by decide)

/-- Claim C8: branch_deltas never returns an entry whose branch name equals
the normalized base branch name. -/
theorem c8_base_excluded (branches : List String) (base_ref : String)
    (rev_list_out : String → String) (ds : List BranchDelta)
    (h : branch_deltas branches base_ref rev_list_out = .ok ds) :
    ∀ d ∈ ds, d.branch ≠ normalize_base_branch_name base_ref := by
  unfold branch_deltas at h
  rcases hloop : branch_deltas_loop (normalize_base_branch_name base_ref) rev_list_out branches
    with e | ds0 <;> rw [hloop] at h
  · exact absurd h (by simp [Except.map])
  · have h2 : List.insertionSort delta_sort_rel ds0 = ds := by simpa [Except.map] using h
    intro d hd
    rw [← h2] at hd
    exact branch_deltas_loop_mem _ _ branches ds0 hloop d ((List.mem_insertionSort _).mp hd)

/-- Claim C8 witness: with local branches feat and main and base main, the
computation returns exactly the delta for feat, whose name differs from the
normalized base. -/
theorem c8_base_excluded_witness :
    BranchDelta.branch ⟨"feat", 1, 2⟩ ≠ normalize_base_branch_name "main" :=
  c8_base_excluded ["feat", "main"] "main" (fun _ => "1 2") [⟨"feat", 1, 2⟩] rfl
    ⟨"feat", 1, 2⟩ (by decide)

/-- Claim C9: discovery is fatal on a non-ISO start timestamp.  With one log
whose session_meta record is fully valid and one whose record carries a
non-empty timestamp that fromisoformat rejects (both inside the project
root), the whole discovery pass raises (the error case) instead of returning
the valid session; dropping the bad log, the same pass returns the valid
session record. -/
theorem c9_discovery_iso_fatal :
    discover_sessions sample_parse sample_within sample_fromiso
        [("log1", ["G"]), ("log2", ["B"])] =
      .error "ValueError: Invalid isoformat string" ∧
      discover_sessions sample_parse sample_within sample_fromiso [("log1", ["G"])] =
        .ok [sample_record] ∧
      py_strip "not-a-timestamp" ≠ "" :=
  ⟨rfl, rfl, by decide⟩

/-- Claim C2 counterexample: the previous cycle recorded the id list [A, A]
(the same session id seen in two log partitions, which discovery reports
twice); the current cycle has the single active session A.  The current and
previous id sets are equal, yet the cycle emits a delta.sessions record
(with empty added and removed fields), because the code compares ordered id
lists, not sets. -/
theorem c2_counterexample :
    (run_cycle_parts 20 ⟨["A", "A"], none, 1000⟩ "T"
        [⟨"A", "primary", "b", "", "s", "", "", ""⟩] ⟨"main", false, [], [], []⟩ 0).1.1 =
      ["T | delta.sessions | total=1 | added=- | removed=-"] ∧
      List.map (fun item => item.session_id)
          [(⟨"A", "primary", "b", "", "s", "", "", ""⟩ : ActiveSession)] = ["A"] ∧
      (["A"] : List String).toFinset = (["A", "A"] : List String).toFinset :=
  ⟨rfl, rfl, by decide⟩

/-- Claim C2 amended: a session delta record is emitted exactly when the
current ordered list of active session ids differs from the previous cycle
list (set equality does not suppress it); the record lists added and removed
ids as sorted set differences, followed by one detail line per added id,
capped to the first eight added ids in sorted id order (not the eight most
recently started). -/
theorem c2_session_delta_amended (hbI : ℚ) (prev_ids : List String)
    (prev_topo : Option Topology) (next_hb : ℚ) (ts : String)
    (active : List ActiveSession) (topology : Topology) (t : ℚ) :
    ((run_cycle_parts hbI ⟨prev_ids, prev_topo, next_hb⟩ ts active topology t).1.1 ≠ [] ↔
      active.map (fun item => item.session_id) ≠ prev_ids) ∧
    (active.map (fun item => item.session_id) ≠ prev_ids →
      (run_cycle_parts hbI ⟨prev_ids, prev_topo, next_hb⟩ ts active topology t).1.1 =
        emit_session_delta ts prev_ids (active.map (fun item => item.session_id)) active) ∧
    (∀ cur_ids : List String,
      (emit_session_delta ts prev_ids cur_ids active).length =
        1 + min 8 (sorted_set_diff cur_ids prev_ids).length ∧
      (∀ x, x ∈ sorted_set_diff cur_ids prev_ids ↔ x ∈ cur_ids ∧ x ∉ prev_ids) ∧
      (∀ x, x ∈ sorted_set_diff prev_ids cur_ids ↔ x ∈ prev_ids ∧ x ∉ cur_ids) ∧
      List.Sorted (· ≤ ·) (sorted_set_diff cur_ids prev_ids) ∧
      List.Sorted (· ≤ ·) (sorted_set_diff prev_ids cur_ids)) := by
  have hparts : (run_cycle_parts hbI ⟨prev_ids, prev_topo, next_hb⟩ ts active topology t).1.1 =
      (if active.map (fun item => item.session_id) ≠ prev_ids then
        emit_session_delta ts prev_ids (active.map (fun item => item.session_id)) active
      else []) := by
    unfold run_cycle_parts
    by_cases hc : active.map (fun item => item.session_id) = prev_ids
    · simp [hc]
    · simp [hc]
  refine ⟨?_, ?_, ?_⟩
  · rw [hparts]
    by_cases hc : active.map (fun item => item.session_id) = prev_ids
    · simp [hc]
    · simp [hc, emit_session_delta]
  · intro hne
    rw [hparts, if_pos hne]
  · intro cur_ids
    refine ⟨?_, fun x => mem_sorted_set_diff _ _ x, fun x => mem_sorted_set_diff _ _ x, ?_, ?_⟩
    · unfold emit_session_delta
      simp [List.length_take, Nat.add_comm]
    · exact List.sorted_insertionSort _ _
    · exact List.sorted_insertionSort _ _

/-- Claim C2 amended witness: previous set {A, B}, current {B, C}: the cycle
emits the delta record with added=[C], removed=[A], one detail line for C. -/
theorem c2_session_delta_witness :
    (run_cycle_parts 20 ⟨["B", "A"], none, 1000⟩ "T"
        [⟨"C", "subagent", "b2", "p", "s2", "", "", ""⟩,
         ⟨"B", "primary", "b1", "", "s1", "", "", ""⟩]
        ⟨"main", false, [], [], []⟩ 0).1.1 =
      emit_session_delta "T" ["B", "A"] ["C", "B"]
        [⟨"C", "subagent", "b2", "p", "s2", "", "", ""⟩,
         ⟨"B", "primary", "b1", "", "s1", "", "", ""⟩] ∧
      sorted_set_diff ["C", "B"] ["B", "A"] = ["C"] ∧
      sorted_set_diff ["B", "A"] ["C", "B"] = ["A"] :=
  ⟨(c2_session_delta_amended 20 ["B", "A"] none 1000 "T"
      [⟨"C", "subagent", "b2", "p", "s2", "", "", ""⟩,
       ⟨"B", "primary", "b1", "", "s1", "", "", ""⟩]
      ⟨"main", false, [], [], []⟩ 0).2.1 (by decide),
   by decide, by decide⟩

/-- Claim C10: on the first cycle that completes without error, a heartbeat is
always emitted regardless of the configured heartbeat interval: the deadline
starts at zero and the monotonic clock is non-negative.  In single-shot mode
a successful run exits with status 0 and its output ends with the two
heartbeat lines. -/
theorem c10_first_cycle_heartbeat (hbI : ℚ) (ts : String) (active : List ActiveSession)
    (topology : Topology) (t : ℚ) (ht : 0 ≤ t) :
    (run_once hbI ts (.ok (active, topology)) t).2 = 0 ∧
    List.IsSuffix (emit_heartbeat ts active topology)
      (run_once hbI ts (.ok (active, topology)) t).1 ∧
    (emit_heartbeat ts active topology).length = 2 := by
  refine ⟨rfl, ?_, ?_⟩
  · show List.IsSuffix _ (run_cycle_ok hbI initial_loop_state ts active topology t).1
    unfold run_cycle_ok run_cycle_parts
    dsimp only
    rw [if_pos (show initial_loop_state.next_heartbeat ≤ t from ht)]
    exact ⟨_, rfl⟩
  · by_cases hh : (active.take 5).isEmpty
    · simp [emit_heartbeat, hh]
    · simp [emit_heartbeat, hh]

/-- Claim C10 witness: a single-shot run with no active sessions at monotonic
time zero exits 0 and ends with the heartbeat lines. -/
theorem c10_first_cycle_witness :
    (run_once 20 "T" (.ok ([], ⟨"main", false, [], [], []⟩)) 0).2 = 0 ∧
    List.IsSuffix (emit_heartbeat "T" [] ⟨"main", false, [], [], []⟩)
      (run_once 20 "T" (.ok ([], ⟨"main", false, [], [], []⟩)) 0).1 ∧
    (emit_heartbeat "T" [] ⟨"main", false, [], [], []⟩).length = 2 :=
  c10_first_cycle_heartbeat 20 "T" [] ⟨"main", false, [], [], []⟩ 0 (by decide)
